import Mathlib

/-!
Verification of the bond-portfolio dashboard's ingestion and aggregation
pipeline.  The TypeScript source is shallowly embedded: JS numbers are exact
rationals with an explicit non-finite value (`none` models `NaN` and the
infinities produced by a zero denominator), spreadsheet cells are a sum type
(string, integer-valued numeric cell, or absent), JS `Date` values are
year/month/day triples compared at day granularity, and the ad hoc regular
expressions of the source are implemented as executable character-list
parsers.  The runtime timezone is taken to be UTC and times of day are not
modelled; every concrete evaluation below happens mid-month, where a time of
day cannot change any comparison used by the code.
-/

namespace BW

/-- A finite JS number, kept as an exact unnormalised fraction: numerator
over a natural denominator.  Every value the embedding constructs has a
positive denominator (amounts come from `parseFloat`, whose denominators are
powers of ten, and sums and differences multiply denominators), so the
comparisons below may soundly read the numerator's sign.  Order-theoretic
claim statements go through `JQ.toRat`, the numeric value. -/
structure JQ where
  n : ℤ
  d : ℕ
deriving DecidableEq

instance (k : ℕ) : OfNat JQ k := ⟨⟨(k : ℤ), 1⟩⟩

/-- Exact JS addition: cross-multiplied numerators over the product
denominator. -/
def JQ.add (a b : JQ) : JQ := ⟨a.n * b.d + b.n * a.d, a.d * b.d⟩

/-- Exact JS subtraction. -/
def JQ.sub (a b : JQ) : JQ := ⟨a.n * b.d - b.n * a.d, a.d * b.d⟩

/-- Exact JS negation. -/
def JQ.negate (a : JQ) : JQ := ⟨-a.n, a.d⟩

instance : Neg JQ := ⟨JQ.negate⟩

instance : Add JQ := ⟨JQ.add⟩

instance : Sub JQ := ⟨JQ.sub⟩

/-- Numeric value of a `JQ`. -/
def JQ.toRat (q : JQ) : ℚ := (q.n : ℚ) / (q.d : ℚ)

/-- Positive finite number with the positive denominator every
pipeline-constructed value has. -/
def JQ.posB (q : JQ) : Bool := decide (0 < q.n) && decide (0 < q.d)

/-- JavaScript number as used by the dashboard: `some q` is a finite value,
`none` models a non-finite result (`NaN`, or the `±Infinity`/`NaN` produced
by dividing by zero). -/
abbrev JSNum := Option JQ

/-- JS `x + y` with non-finite propagation. -/
def nadd : JSNum → JSNum → JSNum
  | some a, some b => some (a + b)
  | _, _ => none

/-- JS `x - y` with non-finite propagation. -/
def nsub : JSNum → JSNum → JSNum
  | some a, some b => some (a - b)
  | _, _ => none

/-- JS `Math.max(0, x)`; `Math.max(0, NaN)` is `NaN`. -/
def nmax0 : JSNum → JSNum
  | some a => some (if a.n < 0 then (0 : JQ) else a)
  | none => none

/-- JS `x <= 0` (false when `x` is `NaN`). -/
def nle0 : JSNum → Bool
  | some a => decide (a.n ≤ 0)
  | none => false

/-- JS `x > 0` (false when `x` is `NaN`). -/
def ngt0 : JSNum → Bool
  | some a => decide (0 < a.n)
  | none => false

/-- JS truthiness of a number: `0` and `NaN` are falsy. -/
def nfalsy : JSNum → Bool
  | some a => decide (a.n = 0)
  | none => true

/-- A finite, strictly positive JS number (with positive denominator). -/
def posAmt : JSNum → Bool
  | some q => q.posB
  | none => false

/-- JS `x / n` where `n` is a JS array length: a zero denominator never
yields a finite number (`0/0` is `NaN`, otherwise `±Infinity`), both modelled
as `none`. -/
def ndivNat : JSNum → ℕ → JSNum
  | some a, n => if n = 0 then none else some ⟨a.n, a.d * n⟩
  | none, _ => none

/-- Substring occurrence on character lists (used to model JS
`String.includes`). -/
def listHasSubstr (needle : List Char) : List Char → Bool
  | [] => needle.isEmpty
  | c :: t => needle.isPrefixOf (c :: t) || listHasSubstr needle t

/-- JS `hay.includes(needle)`. -/
def jsIncludes (hay needle : String) : Bool :=
  listHasSubstr needle.toList hay.toList

/-- Emptiness of a string through its character list. -/
def strIsEmpty (s : String) : Bool := s.toList.isEmpty

/-- JS `s.toLowerCase()` (the tokens the source compares are ASCII). -/
def jsLower (s : String) : String := ⟨s.toList.map Char.toLower⟩

/-- Decimal digit test, JS `\d`. -/
def isDigitCh (c : Char) : Bool := c.isDigit

/-- JS `[A-Za-z]`. -/
def isAlphaCh (c : Char) : Bool :=
  ('a' ≤ c && c ≤ 'z') || ('A' ≤ c && c ≤ 'Z')

/-- JS `\s`, restricted to the ASCII whitespace that can occur in the sheets. -/
def isSpaceCh (c : Char) : Bool :=
  c == ' ' || c == '\t' || c == '\n' || c == '\r'

/-- JS `s.trim()`: whitespace stripped from both ends. -/
def jsTrim (s : String) : String :=
  ⟨((s.toList.dropWhile isSpaceCh).reverse.dropWhile isSpaceCh).reverse⟩

/-- Split a string at every `/` (the only separator the source splits on),
keeping empty pieces, as JS `split('/')` does. -/
def splitSlashAux : List Char → List Char → List String
  | [], acc => [⟨acc.reverse⟩]
  | c :: t, acc =>
    if c == '/' then (⟨acc.reverse⟩ : String) :: splitSlashAux t []
    else splitSlashAux t (c :: acc)

/-- JS `s.split('/')`. -/
def splitSlash (s : String) : List String := splitSlashAux s.toList []

/-- Numeric value of a digit list, most significant digit first. -/
def digitsVal : List Char → ℕ :=
  List.foldl (fun a c => 10 * a + (c.toNat - 48)) 0

/-- Leading run of digits, `none` when there is none (a `NaN` outcome). -/
def parseLeadDigits (l : List Char) : Option ℕ :=
  let ds := l.takeWhile isDigitCh
  if ds.isEmpty then none else some (digitsVal ds)

/-- JS `parseInt(s)` as the source uses it: skip leading whitespace, optional
sign, leading digits, trailing junk ignored; `none` models `NaN`. -/
def jsParseIntOpt (s : String) : Option ℤ :=
  match s.toList.dropWhile isSpaceCh with
  | '-' :: t => (parseLeadDigits t).map (fun n => -(n : ℤ))
  | '+' :: t => (parseLeadDigits t).map (fun n => (n : ℤ))
  | l => (parseLeadDigits l).map (fun n => (n : ℤ))

/-- Magnitude part of `parseFloat`: digits, optional point, digits; at least
one digit overall.  The value `ds + fs / 10 ^ |fs|` is kept as one fraction
over the power-of-ten denominator. -/
def parseFloatMag (l : List Char) : Option JQ :=
  let ds := l.takeWhile isDigitCh
  match l.drop ds.length with
  | '.' :: t =>
    let fs := t.takeWhile isDigitCh
    if ds.isEmpty && fs.isEmpty then none
    else some ⟨(digitsVal ds : ℤ) * (10 ^ fs.length : ℤ) + (digitsVal fs : ℤ), 10 ^ fs.length⟩
  | _ => if ds.isEmpty then none else some ⟨(digitsVal ds : ℤ), 1⟩

/-- JS `parseFloat(s)`: leading whitespace, optional sign, decimal magnitude,
trailing junk ignored; `none` models `NaN`.  Exponent notation is not
modelled: at the call sites that matter the argument has already been
stripped to the characters `0-9.-`. -/
def jsParseFloatOpt (s : String) : JSNum :=
  match s.toList.dropWhile isSpaceCh with
  | '-' :: t => (parseFloatMag t).map (fun q => -q)
  | '+' :: t => parseFloatMag t
  | l => parseFloatMag l

/-- JS replacement of every character other than `0-9`, `.` and `-` by the
empty string (the numeric-coercion strip). -/
def stripNonNumeric (s : String) : String :=
  ⟨s.toList.filter (fun c => isDigitCh c || c == '.' || c == '-')⟩

/-- A spreadsheet cell as the sheet reader delivers it: a string, a numeric
cell (integer-valued; its JS rendering is its decimal numeral), or an
absent/undefined cell. -/
inductive Cell
  | str (s : String)
  | num (n : ℤ)
  | mt
deriving DecidableEq

abbrev Row := List Cell

/-- JS truthiness of a cell: `undefined`, the empty string and `0` are falsy. -/
def Cell.truthy : Cell → Bool
  | .str s => !strIsEmpty s
  | .num n => !(n == 0)
  | .mt => false

/-- JS `typeof cell === 'string'`. -/
def Cell.isStr : Cell → Bool
  | .str _ => true
  | _ => false

/-- JS `cell?.toString()`; `none` models `undefined`. -/
def Cell.toStr : Cell → Option String
  | .str s => some s
  | .num n => some (toString n)
  | .mt => none

/-- JS `row[i]` with an optional column index: an unmapped column or an
out-of-range access yields an undefined cell. -/
def getCell (row : Row) : Option ℕ → Cell
  | some i => row.getD i .mt
  | none => .mt

/-- JS `row[i]?.toString() || ''`. -/
def cellStrOr (row : Row) (i : Option ℕ) : String :=
  ((getCell row i).toStr).getD ""

/-- Issuer extraction, `extractBondIssuer` (three-pattern variant): strip a
trailing `-<digits>` optionally followed by whitespace and a
`<letters>'<digits>` token, then a trailing whitespace plus
`<letters>'<digits>` token, then a trailing whitespace plus bare integer,
then trim.  Each regex is anchored at the end of the string and JS `replace`
takes the leftmost (hence longest) matching suffix; the strippers below
consume the reversed character list. -/
def revDigits1 (l : List Char) : Option (List Char) :=
  let ds := l.takeWhile isDigitCh
  if ds.isEmpty then none else some (l.drop ds.length)

/-- Strip one-or-more letters from the front of a reversed list. -/
def revAlpha1 (l : List Char) : Option (List Char) :=
  let ds := l.takeWhile isAlphaCh
  if ds.isEmpty then none else some (l.drop ds.length)

/-- Strip one-or-more whitespace characters from the front of a reversed
list. -/
def revSpace1 (l : List Char) : Option (List Char) :=
  let ds := l.takeWhile isSpaceCh
  if ds.isEmpty then none else some (l.drop ds.length)

/-- Expect one given character. -/
def expectCh (c : Char) : List Char → Option (List Char)
  | x :: t => if x == c then some t else none
  | [] => none

/-- Reversed form of the token `\s+[A-Za-z]+'\d+` (e.g. ` Jul'23`). -/
def revMonthYearTok (l : List Char) : Option (List Char) := do
  let l1 ← revDigits1 l
  let l2 ← expectCh '\'' l1
  let l3 ← revAlpha1 l2
  revSpace1 l3

/-- Reversed form of `-\d+` (e.g. `-2`). -/
def revDashNumTok (l : List Char) : Option (List Char) := do
  let l1 ← revDigits1 l
  expectCh '-' l1

/-- Replacement of the anchored pattern `-\d+(\s+[A-Za-z]+'\d+)?` at the end
of the string by the empty string. -/
def stripDashNumMonth (s : String) : String :=
  let r := s.toList.reverse
  match revMonthYearTok r with
  | some afterTok =>
    match revDashNumTok afterTok with
    | some rest => ⟨rest.reverse⟩
    | none =>
      match revDashNumTok r with
      | some rest => ⟨rest.reverse⟩
      | none => s
  | none =>
    match revDashNumTok r with
    | some rest => ⟨rest.reverse⟩
    | none => s

/-- Replacement of the anchored pattern `\s+[A-Za-z]+'\d+` at the end of the
string by the empty string. -/
def stripMonthYear (s : String) : String :=
  match revMonthYearTok s.toList.reverse with
  | some rest => ⟨rest.reverse⟩
  | none => s

/-- Replacement of the anchored pattern `\s+\d+` at the end of the string by
the empty string. -/
def stripTrailNum (s : String) : String :=
  match (do
    let l1 ← revDigits1 s.toList.reverse
    revSpace1 l1) with
  | some rest => ⟨rest.reverse⟩
  | none => s

/-- `extractBondIssuer` (the three-pattern variant used by the live
`BondAnalyzer`): the three anchored replacements in sequence, then trim. -/
def extractBondIssuer (bondName : String) : String :=
  jsTrim (stripTrailNum (stripMonthYear (stripDashNumMonth bondName)))

/-- A calendar date at day granularity.  JS `Date` values also carry a time
of day, which is not modelled; every comparison a claim depends on is made
mid-month, where the time of day cannot change its outcome. -/
structure JDate where
  y : ℕ
  m : ℕ
  d : ℕ
deriving DecidableEq

/-- Month index: months elapsed since month 1 of year 0. -/
def JDate.mi (dt : JDate) : ℕ := 12 * dt.y + (dt.m - 1)

/-- JS `Date` comparison `a < b` at day granularity. -/
def JDate.ltD (a b : JDate) : Bool :=
  decide (a.mi < b.mi) || (a.mi == b.mi && decide (a.d < b.d))

/-- Nonempty all-digit string. -/
def allDigits (s : String) : Bool :=
  !strIsEmpty s && s.toList.all isDigitCh

/-- JS `new Date(dmy.split('/').reverse().join('-'))`: a `DD/MM/YYYY` string
turned into `YYYY-MM-DD` and parsed; a shape mismatch, non-numeric component
or out-of-range month/day gives an Invalid Date, modelled as `none`. -/
def parseDateRev (s : String) : Option JDate :=
  match splitSlash s with
  | [d, m, y] =>
    if allDigits d && allDigits m && allDigits y then
      let dn := digitsVal d.toList
      let mn := digitsVal m.toList
      let yn := digitsVal y.toList
      if 1 ≤ mn ∧ mn ≤ 12 ∧ 1 ≤ dn ∧ dn ≤ 31 then some ⟨yn, mn, dn⟩ else none
    else none
  | _ => none

/-- English short month names as produced by
`toLocaleDateString('en-US', month: 'short')`. -/
def monthShortName : ℕ → String
  | 1 => "Jan" | 2 => "Feb" | 3 => "Mar" | 4 => "Apr" | 5 => "May" | 6 => "Jun"
  | 7 => "Jul" | 8 => "Aug" | 9 => "Sep" | 10 => "Oct" | 11 => "Nov" | 12 => "Dec"
  | _ => "???"

/-- English long month names as produced by
`toLocaleDateString('en-GB', month: 'long')`. -/
def monthLongName : ℕ → String
  | 1 => "January" | 2 => "February" | 3 => "March" | 4 => "April"
  | 5 => "May" | 6 => "June" | 7 => "July" | 8 => "August"
  | 9 => "September" | 10 => "October" | 11 => "November" | 12 => "December"
  | _ => "???"

/-- Signed month index of the JS constructor `new Date(Y, M - 1, D)`, whose
month argument normalises by rollover.  Day-of-month overflow is not
normalised (no claim exercises it). -/
def ctorMonthIdx (yv mv : ℤ) : ℤ := 12 * yv + (mv - 1)

/-- `formatMonthYear` of the live `BondAnalyzer`: split `DD/MM/YYYY`, build a
date from the `parseInt`-ed parts and render it as `Mon YYYY`.  A shape or
number failure falls back to the generic `new Date(string)` parse, which is
an Invalid Date for the inputs this program feeds it and renders as
`"Invalid Date"`. -/
def formatMonthYear (s : String) : String :=
  match splitSlash s with
  | [d, m, y] =>
    match jsParseIntOpt y, jsParseIntOpt m, jsParseIntOpt d with
    | some yv, some mv, some _ =>
      let k := ctorMonthIdx yv mv
      monthShortName (k.emod 12 + 1).toNat ++ " " ++ toString (k.ediv 12)
    | _, _, _ => "Invalid Date"
  | _ => "Invalid Date"

/-- `isMatured` of the live `BondAnalyzer`: split `DD/MM/YYYY`, build the
date and compare it with today; an unparseable string (Invalid Date) is
treated as not matured. -/
def isMatured (now : JDate) (s : String) : Bool :=
  match splitSlash s with
  | [d, m, y] =>
    match jsParseIntOpt y, jsParseIntOpt m, jsParseIntOpt d with
    | some yv, some mv, some dv =>
      let k := ctorMonthIdx yv mv
      decide (k < (now.mi : ℤ)) || (k == (now.mi : ℤ) && decide (dv < (now.d : ℤ)))
    | _, _, _ => false
  | _ => false

/-- One parsed investment row (`BondData` in the source). -/
structure BondData where
  bondName : String
  isin : String
  units : JSNum
  investedAmount : JSNum
  faceValue : JSNum
  acquisitionCost : JSNum
  dateOfInvestment : String
  maturityDate : String
  xirr : JSNum
  interestFrequency : String
  principalFrequency : String
  bondIssuer : String
  matured : Bool
  monthYear : String
deriving DecidableEq

/-- One parsed repayment row (`RepaymentData` in the source). -/
structure RepaymentData where
  date : String
  bondName : String
  isin : String
  units : JSNum
  amountInBank : JSNum
  principalRepaid : JSNum
  interestPaidBeforeTDS : JSNum
  interestPaidAfterTDS : JSNum
  tdsDeducted : JSNum
deriving DecidableEq

/-- Column-index map for the investment sheet; `none` means the column was
never recognised (downstream access then yields an undefined cell). -/
structure InvColumnMap where
  bondName : Option ℕ := none
  isin : Option ℕ := none
  units : Option ℕ := none
  investedAmount : Option ℕ := none
  faceValue : Option ℕ := none
  acquisitionCost : Option ℕ := none
  dateOfInvestment : Option ℕ := none
  maturityDate : Option ℕ := none
  xirr : Option ℕ := none
  interestFrequency : Option ℕ := none
  principalFrequency : Option ℕ := none
deriving DecidableEq

/-- Column-index map for the repayment sheet. -/
structure RepColumnMap where
  date : Option ℕ := none
  bondName : Option ℕ := none
  isin : Option ℕ := none
  units : Option ℕ := none
  amountInBank : Option ℕ := none
  principalRepaid : Option ℕ := none
  interestPaidBeforeTDS : Option ℕ := none
  interestPaidAfterTDS : Option ℕ := none
  tdsDeducted : Option ℕ := none
deriving DecidableEq

/-- Effect of one investment header cell on the column map (the lowercased,
trimmed cell text is matched by substring in the source's else-if chain; a
later matching cell overwrites an earlier one, as `forEach` assignment
does). -/
def invHeaderCellHit (cm : InvColumnMap) (i : ℕ) (s : String) : InvColumnMap :=
  let h := jsTrim (jsLower s)
  if jsIncludes h "bond name" then { cm with bondName := some i }
  else if jsIncludes h "isin" then { cm with isin := some i }
  else if jsIncludes h "no. of units" || jsIncludes h "units" then { cm with units := some i }
  else if jsIncludes h "invested amount" then { cm with investedAmount := some i }
  else if jsIncludes h "face value" then { cm with faceValue := some i }
  else if jsIncludes h "acquisition cost" then { cm with acquisitionCost := some i }
  else if jsIncludes h "date of investment" then { cm with dateOfInvestment := some i }
  else if jsIncludes h "maturity date" then { cm with maturityDate := some i }
  else if jsIncludes h "xirr" then { cm with xirr := some i }
  else if jsIncludes h "frequency of interest" then { cm with interestFrequency := some i }
  else if jsIncludes h "frequency of principal" then { cm with principalFrequency := some i }
  else cm

/-- Column map built from the located investment header row (only truthy
string cells participate). -/
def buildInvColumnMap (headers : Row) : InvColumnMap :=
  headers.enum.foldl
    (fun cm p =>
      match p.2 with
      | .str s => if strIsEmpty s then cm else invHeaderCellHit cm p.1 s
      | _ => cm)
    {}

/-- Effect of one repayment header cell on the column map. -/
def repHeaderCellHit (cm : RepColumnMap) (i : ℕ) (s : String) : RepColumnMap :=
  let h := jsTrim (jsLower s)
  if jsIncludes h "date" && !jsIncludes h "maturity" then { cm with date := some i }
  else if jsIncludes h "name of bond" then { cm with bondName := some i }
  else if jsIncludes h "isin" then { cm with isin := some i }
  else if jsIncludes h "no. of units" then { cm with units := some i }
  else if jsIncludes h "amount in bank" then { cm with amountInBank := some i }
  else if jsIncludes h "principal repaid" then { cm with principalRepaid := some i }
  else if jsIncludes h "interest paid (before tds deduction)" then { cm with interestPaidBeforeTDS := some i }
  else if jsIncludes h "interest paid (after tds deduction)" then { cm with interestPaidAfterTDS := some i }
  else if jsIncludes h "tds deducted" then { cm with tdsDeducted := some i }
  else cm

/-- Column map built from the located repayment header row. -/
def buildRepColumnMap (headers : Row) : RepColumnMap :=
  headers.enum.foldl
    (fun cm p =>
      match p.2 with
      | .str s => if strIsEmpty s then cm else repHeaderCellHit cm p.1 s
      | _ => cm)
    {}

/-- Investment header-row test: some truthy string cell whose lowercase text
contains `bond name` or `isin`. -/
def invHeaderRow (row : Row) : Bool :=
  row.any fun c =>
    match c with
    | .str s => !strIsEmpty s && (jsIncludes (jsLower s) "bond name" || jsIncludes (jsLower s) "isin")
    | _ => false

/-- Repayment header-row test: some truthy string cell whose lowercase text
contains both `date` and `name of bond` — both tokens must occur in the SAME
cell, which is the behaviour claim C3 is about. -/
def repHeaderRow (row : Row) : Bool :=
  row.any fun c =>
    match c with
    | .str s => !strIsEmpty s && (jsIncludes (jsLower s) "date" && jsIncludes (jsLower s) "name of bond")
    | _ => false

/-- Index of the first row satisfying the header predicate (the source's
`for` loop with `break`). -/
def findHeaderIdx (p : Row → Bool) : List Row → Option ℕ
  | [] => none
  | r :: rs => if p r then some 0 else (findHeaderIdx p rs).map (· + 1)

/-- Numeric coercion with character stripping:
`parseFloat(cell?.toString().replace(...) || '0')`. -/
def coerceAmount (c : Cell) : JSNum :=
  match c.toStr with
  | none => jsParseFloatOpt "0"
  | some s =>
    let t := stripNonNumeric s
    jsParseFloatOpt (if strIsEmpty t then "0" else t)

/-- Raw numeric coercion (no stripping): `parseFloat(cell?.toString() || '0')`. -/
def coerceRawNum (c : Cell) : JSNum :=
  match c.toStr with
  | none => jsParseFloatOpt "0"
  | some s => jsParseFloatOpt (if strIsEmpty s then "0" else s)

/-- Trailer/stray-header test on the first cell of an investment data row. -/
def invSkipFirstCell (c : Cell) : Bool :=
  match c with
  | .str s => jsIncludes (jsLower s) "total" || jsIncludes (jsLower s) "bond name" || strIsEmpty (jsTrim s)
  | _ => false

/-- The `BondData` record built from one accepted investment row. -/
def mkBondRecord (now : JDate) (cm : InvColumnMap) (row : Row) : BondData :=
  let bondName := cellStrOr row cm.bondName
  { bondName := bondName
    isin := cellStrOr row cm.isin
    units := coerceRawNum (getCell row cm.units)
    investedAmount := coerceAmount (getCell row cm.investedAmount)
    faceValue := coerceAmount (getCell row cm.faceValue)
    acquisitionCost := coerceAmount (getCell row cm.acquisitionCost)
    dateOfInvestment := cellStrOr row cm.dateOfInvestment
    maturityDate := cellStrOr row cm.maturityDate
    xirr := coerceAmount (getCell row cm.xirr)
    interestFrequency := cellStrOr row cm.interestFrequency
    principalFrequency := cellStrOr row cm.principalFrequency
    bondIssuer := extractBondIssuer bondName
    matured := isMatured now (cellStrOr row cm.maturityDate)
    monthYear := formatMonthYear (cellStrOr row cm.dateOfInvestment) }

/-- One iteration of the investment data-row loop of `cleanAndParseData`;
`none` means the row is skipped (`continue`). -/
def parseInvRow (now : JDate) (cm : InvColumnMap) (row : Row) : Option BondData :=
  if row.isEmpty then none
  else if !(getCell row (some 0)).truthy then none
  else if invSkipFirstCell (getCell row (some 0)) then none
  else if strIsEmpty (cellStrOr row cm.bondName) then none
  else if nle0 (coerceAmount (getCell row cm.investedAmount)) then none
  else some (mkBondRecord now cm row)

/-- `cleanAndParseData`: locate the investment header (throwing when there is
none), build the column map, and run the row loop on everything after the
header. -/
def cleanAndParseData (now : JDate) (rows : List Row) : Except String (List BondData) :=
  match findHeaderIdx invHeaderRow rows with
  | none => .error "Could not find header row in the Excel file"
  | some i =>
    .ok ((rows.drop (i + 1)).filterMap (parseInvRow now (buildInvColumnMap (rows.getD i []))))

/-- The repayment date test, regex `\d{1,2}/\d{1,2}/\d{4}` anchored at both
ends: exactly two slashes separating one-or-two-digit day and month fields
and a four-digit year field. -/
def matchesDMY (s : String) : Bool :=
  match splitSlash s with
  | [d, m, y] =>
    allDigits d && decide (d.length ≤ 2) && allDigits m && decide (m.length ≤ 2) &&
      allDigits y && decide (y.length = 4)
  | _ => false

/-- Trailer/stray-header test on the first cell of a repayment data row. -/
def repSkipFirstCell (c : Cell) : Bool :=
  match c with
  | .str s =>
    jsIncludes (jsLower s) "total" || jsIncludes (jsLower s) "date" ||
      jsIncludes (jsLower s) "grand" || strIsEmpty (jsTrim s)
  | _ => false

/-- Trailer/stray-header test on the bond-name cell of a repayment data row. -/
def repSkipBondCell (c : Cell) : Bool :=
  match c with
  | .str s =>
    jsIncludes (jsLower s) "total" || jsIncludes (jsLower s) "name of bond" || strIsEmpty (jsTrim s)
  | _ => false

/-- The `RepaymentData` record built from one accepted repayment row. -/
def mkRepRecord (cm : RepColumnMap) (row : Row) : RepaymentData :=
  { date := cellStrOr row cm.date
    bondName := cellStrOr row cm.bondName
    isin := cellStrOr row cm.isin
    units := coerceRawNum (getCell row cm.units)
    amountInBank := coerceAmount (getCell row cm.amountInBank)
    principalRepaid := coerceAmount (getCell row cm.principalRepaid)
    interestPaidBeforeTDS := coerceAmount (getCell row cm.interestPaidBeforeTDS)
    interestPaidAfterTDS := coerceAmount (getCell row cm.interestPaidAfterTDS)
    tdsDeducted := coerceAmount (getCell row cm.tdsDeducted) }

/-- One iteration of the repayment data-row loop of
`cleanAndParseRepaymentData`; `none` means the row is skipped. -/
def parseRepRow (cm : RepColumnMap) (row : Row) : Option RepaymentData :=
  if row.isEmpty then none
  else if !(getCell row (some 0)).truthy then none
  else if !(getCell row cm.bondName).truthy then none
  else if repSkipFirstCell (getCell row (some 0)) then none
  else if repSkipBondCell (getCell row cm.bondName) then none
  else if !matchesDMY (cellStrOr row cm.date) then none
  else if strIsEmpty (cellStrOr row cm.bondName) then none
  else some (mkRepRecord cm row)

/-- `cleanAndParseRepaymentData`: when no repayment header row exists the
function returns the empty list instead of throwing; otherwise it runs the
row loop after the header. -/
def cleanAndParseRepaymentData (rows : List Row) : List RepaymentData :=
  match findHeaderIdx repHeaderRow rows with
  | none => []
  | some i =>
    (rows.drop (i + 1)).filterMap (parseRepRow (buildRepColumnMap (rows.getD i [])))

/-- A fully-qualified pivot coordinate: issuer, bond key, time bucket. -/
abbrev Coord := String × String × String

/-- The nested-object pivot, represented as an association list from full
coordinates to accumulated JS numbers. -/
abbrev Pivot := List (Coord × JSNum)

/-- Reading `pivot[issuer][key][bucket]`: `none` is an absent entry
(`undefined`), `some v` a present entry with value `v`. -/
def lookupPivot : Pivot → Coord → Option JSNum
  | [], _ => none
  | e :: t, c => if e.1 = c then some e.2 else lookupPivot t c

/-- One pivot accumulation step on a cell value, source shape
`if (!p[c]) p[c] = 0; p[c] += amt`: an absent or falsy (`0`/`NaN`) current
value is first reset to `0`, then the amount is added. -/
def bumpVal (v : Option JSNum) (amt : JSNum) : JSNum :=
  nadd
    (match v with
     | some w => if nfalsy w then some 0 else w
     | none => some 0)
    amt

/-- Apply one accumulation at a coordinate of the pivot. -/
def pivotAdd : Pivot → Coord → JSNum → Pivot
  | [], c, amt => [(c, bumpVal none amt)]
  | e :: t, c, amt =>
    if e.1 = c then (c, bumpVal (some e.2) amt) :: t else e :: pivotAdd t c amt

/-- Fold a bond list into a pivot, one accumulation of `investedAmount` per
bond at its coordinate. -/
def buildPivot (coord : BondData → Coord) (l : List BondData) : Pivot :=
  l.foldl (fun m b => pivotAdd m (coord b) b.investedAmount) []

/-- The three time granularities of `BondAnalysisView`. -/
inductive DurationView
  | years
  | quarters
  | months
deriving DecidableEq

/-- The pivot time key of `filteredPivotData`: the four-digit year, the
quarter label `Qn YYYY`, or the precomputed `monthYear` field; an
unparseable date renders through JS `NaN` arithmetic. -/
def timeKey (v : DurationView) (b : BondData) : String :=
  match v with
  | .years =>
    match parseDateRev b.dateOfInvestment with
    | some dt => toString dt.y
    | none => "NaN"
  | .quarters =>
    match parseDateRev b.dateOfInvestment with
    | some dt => "Q" ++ toString ((dt.m + 2) / 3) ++ " " ++ toString dt.y
    | none => "QNaN NaN"
  | .months => b.monthYear

/-- Full coordinate used by `filteredPivotData`: issuer, composite series key
`bondName|isin`, time bucket. -/
def viewCoord (v : DurationView) (b : BondData) : Coord :=
  (b.bondIssuer, b.bondName ++ "|" ++ b.isin, timeKey v b)

/-- The `filteredPivotData` memo of `BondAnalysisView`, applied to the
already-filtered investment list. -/
def filteredPivotData (v : DurationView) (filteredData : List BondData) : Pivot :=
  buildPivot (viewCoord v) filteredData

/-- The upload-time `generatePivotData` of the live `BondAnalyzer`: matured
bonds are dropped and every active bond accumulates under
`pivot[issuer][issuer][monthYear]` — the second-level key is the issuer name
itself, not the bond name. -/
def generatePivotData (data : List BondData) : Pivot :=
  buildPivot (fun b => (b.bondIssuer, b.bondIssuer, b.monthYear))
    (data.filter (fun b => !b.matured))

/-- Sum of a numeric field over a bond list (JS `reduce` from `0`). -/
def sumBy (f : BondData → JSNum) (l : List BondData) : JSNum :=
  l.foldl (fun a b => nadd a (f b)) (some 0)

/-- Sum of a numeric field over a repayment list (JS `reduce` from `0`). -/
def sumRepBy (f : RepaymentData → JSNum) (l : List RepaymentData) : JSNum :=
  l.foldl (fun a r => nadd a (f r)) (some 0)

/-- The `avgXirr` memo of `BondAnalysisView`: an explicit zero-length guard
returns `0`, otherwise the mean of `xirr` over the filtered bonds. -/
def avgXirr (filteredData : List BondData) : JSNum :=
  if filteredData.length = 0 then some 0
  else ndivNat (sumBy (fun b => b.xirr) filteredData) filteredData.length

/-- The `Avg XIRR` cell of `BondTable`: the same mean with NO zero-length
guard — on an empty bond list it divides `0` by `0`. -/
def bondTableAvgXirr (bondData : List BondData) : JSNum :=
  ndivNat (sumBy (fun b => b.xirr) bondData) bondData.length

/-- The `avgInvestment` memo of `BondAnalysisView`: the grand total divided
by the number of time periods, with NO guard on the period count. -/
def avgInvestment (issuerTotals : List JSNum) (numPeriods : ℕ) : JSNum :=
  ndivNat (issuerTotals.foldl nadd (some 0)) numPeriods

/-- The per-series `Principal Remaining` cell of `BondAnalysisView`:
aggregate the series investments (`none` models the `'-'` placeholder when
the series has no filtered investment), subtract the matched principal
repayments and clamp at zero with `Math.max`. -/
def seriesPrincipalRemaining (filteredData : List BondData)
    (repaymentData : List RepaymentData) (bondName isin issuer : String) : Option JSNum :=
  let bondInvestments := filteredData.filter fun b =>
    b.bondName == bondName && b.isin == isin && b.bondIssuer == issuer
  if bondInvestments.isEmpty then none
  else
    let totalInvestment := sumBy (fun b => b.investedAmount) bondInvestments
    let bondRepayments := repaymentData.filter fun r => r.bondName == bondName && r.isin == isin
    some (nmax0 (nsub totalInvestment (sumRepBy (fun r => r.principalRepaid) bondRepayments)))

/-- The `principalRemaining` value of `BondDetailsModal` (the multi-tranche
variant): total invested over the series minus total principal repaid, with
NO clamp at zero. -/
def modalPrincipalRemaining (allBondData : List BondData)
    (repaymentData : List RepaymentData) (bondName isin : String) : JSNum :=
  let allInvestmentEntries := allBondData.filter fun b =>
    b.bondName == bondName && b.isin == isin
  let bondRepaymentData := repaymentData.filter fun r =>
    r.bondName == bondName && r.isin == isin
  nsub (sumBy (fun b => b.investedAmount) allInvestmentEntries)
    (sumRepBy (fun r => r.principalRepaid) bondRepaymentData)

/-- Zero-padded two-digit rendering (JS `padStart(2, '0')`). -/
def pad2 (n : ℕ) : String :=
  if n < 10 then "0" ++ toString n else toString n

/-- The `DD/MM/YYYY` label `BondAnalysisView` builds for the first of an
expected month. -/
def fmtFirstOfMonth (k : ℕ) : String :=
  "01/" ++ pad2 (k % 12 + 1) ++ "/" ++ toString (k / 12)

/-- The `Month YYYY` label `BondDetailsModal` renders for a missed month. -/
def monthLabel (k : ℕ) : String :=
  monthLongName (k % 12 + 1) ++ " " ++ toString (k / 12)

/-- Month indices of the expected interest months: from the month after the
investment through the earlier of now and maturity (the source's `while`
loop over first-of-month dates). -/
def expectedMonthIdxs (startIdx endIdx : ℕ) : List ℕ :=
  (List.range (endIdx + 1 - startIdx)).map (startIdx + ·)

/-- Month indices carrying a qualifying interest repayment for the bond:
same bond name and ISIN, positive pre-TDS interest. -/
def interestPaymentIdxs (bond : BondData) (reps : List RepaymentData) : List ℕ :=
  (reps.filter fun r =>
      r.bondName == bond.bondName && r.isin == bond.isin && ngt0 r.interestPaidBeforeTDS).filterMap
    fun r => (parseDateRev r.date).map JDate.mi

/-- `getMissedInterestMonths` of `BondAnalysisView`: Monthly bonds only;
expected months run from the month after investment to `min(now, maturity)`;
a month is kept when its first day is before now, it is NOT the current
month, and no qualifying repayment falls in it; the output labels are the
first-of-month `DD/MM/YYYY` strings the loop pushed. -/
def missedInterestMonthsView (bond : BondData) (reps : List RepaymentData) (now : JDate) :
    List String :=
  if bond.interestFrequency ≠ "Monthly" then []
  else
    match parseDateRev bond.dateOfInvestment, parseDateRev bond.maturityDate with
    | some inv, some mat =>
      let endD := if JDate.ltD now mat then now else mat
      let pays := interestPaymentIdxs bond reps
      ((expectedMonthIdxs (inv.mi + 1) endD.mi).filter fun k =>
          (decide (k < now.mi) || (k == now.mi && decide (1 < now.d))) && !(k == now.mi) &&
            !(pays.contains k)).map
        fmtFirstOfMonth
    | _, _ => []

/-- `getMissedInterestMonths` of `BondDetailsModal`: same expected months,
but the filter only requires the first of the expected month to be before
now — there is no current-month exclusion — and the labels are long
`Month YYYY` strings. -/
def missedInterestMonthsModal (bondName : String) (bondData : Option BondData)
    (reps : List RepaymentData) (now : JDate) : List String :=
  match bondData with
  | none => []
  | some bond =>
    if bond.interestFrequency ≠ "Monthly" then []
    else
      match parseDateRev bond.dateOfInvestment, parseDateRev bond.maturityDate with
      | some inv, some mat =>
        let endD := if JDate.ltD now mat then now else mat
        let pays := (reps.filter fun r =>
            r.bondName == bondName && r.isin == bond.isin &&
              ngt0 r.interestPaidBeforeTDS).filterMap
          fun r => (parseDateRev r.date).map JDate.mi
        ((expectedMonthIdxs (inv.mi + 1) endD.mi).filter fun k =>
            (decide (k < now.mi) || (k == now.mi && decide (1 < now.d))) && !(pays.contains k)).map
          monthLabel
      | _, _ => []

/-- The core of `handleFileUpload`: parse the investment sheet (its header
error is fatal), parse the repayment sheet (its parser is total), throw when
no investment row survived, otherwise hand the records and the upload-time
pivot to the presentation layer. -/
def uploadResult (now : JDate) (invRows repRows : List Row) :
    Except String (List BondData × List RepaymentData × Pivot) :=
  match cleanAndParseData now invRows with
  | .error e => .error e
  | .ok parsed =>
    let reps := cleanAndParseRepaymentData repRows
    if parsed.isEmpty then .error "No valid bond data found in the file"
    else .ok (parsed, reps, generatePivotData parsed)

/-- Reference bond of the test scenarios: Monthly-interest bond invested on
`01/01/2024`, maturing `01/01/2026`. -/
def exBond : BondData :=
  { bondName := "ABC Bond"
    isin := "INE1"
    units := some 1
    investedAmount := some 100000
    faceValue := some 100000
    acquisitionCost := some 100000
    dateOfInvestment := "01/01/2024"
    maturityDate := "01/01/2026"
    xirr := some 10
    interestFrequency := "Monthly"
    principalFrequency := "At Maturity"
    bondIssuer := "ABC"
    matured := false
    monthYear := "Jan 2024" }

/-- A second tranche of the same series bought in June 2023. -/
def exBond2 : BondData :=
  { exBond with
    investedAmount := some 50000
    dateOfInvestment := "01/06/2023"
    monthYear := "Jun 2023" }

/-- A matured bond of the same issuer. -/
def exBondMatured : BondData :=
  { exBond with
    bondName := "ABC Old"
    isin := "INE0"
    investedAmount := some 70000
    dateOfInvestment := "01/01/2020"
    maturityDate := "01/01/2023"
    matured := true
    monthYear := "Jan 2020" }

/-- A bond record whose invested amount is `NaN` — exactly what the real
parser produces for an amount cell such as `"-"`, which survives the
`investedAmount <= 0` guard because `NaN <= 0` is false. -/
def exBondNaN : BondData :=
  { exBond with investedAmount := none }

/-- An interest repayment on the reference bond at the given date. -/
def exRep (d : String) : RepaymentData :=
  { date := d
    bondName := "ABC Bond"
    isin := "INE1"
    units := some 1
    amountInBank := some 720
    principalRepaid := some 0
    interestPaidBeforeTDS := some 800
    interestPaidAfterTDS := some 720
    tdsDeducted := some 80 }

/-- Interest repayments present for Feb, Mar and Apr 2024 and absent for
May 2024 — the reference scenario of the missed-months property. -/
def exReps : List RepaymentData :=
  [exRep "05/02/2024", exRep "05/03/2024", exRep "05/04/2024"]

/-- A single repayment whose repaid principal exceeds the invested amount of
`exBond` (over-repayment). -/
def exOverRep : RepaymentData :=
  { exRep "05/02/2024" with principalRepaid := some 150000, interestPaidBeforeTDS := some 0 }

/-- The evaluation instant of the reference scenarios: 15 June 2024. -/
def exNow : JDate := ⟨2024, 6, 15⟩

/-- Acceptance predicate of the investment row loop: the conjunction of all
the row guards of `cleanAndParseData` (nonempty row, truthy first cell, no
trailer/stray-header first cell, nonempty coerced bond name, positively
parsed invested amount). -/
def invRowAccepted (cm : InvColumnMap) (row : Row) : Bool :=
  !row.isEmpty && (getCell row (some 0)).truthy &&
    !invSkipFirstCell (getCell row (some 0)) &&
    !strIsEmpty (cellStrOr row cm.bondName) &&
    !nle0 (coerceAmount (getCell row cm.investedAmount))

/-- Investment sheet of the reference upload: a header row and one data
row. -/
def exInvRows : List Row :=
  [[Cell.str "Bond Name", Cell.str "Invested Amount"],
   [Cell.str "ABC Bond-1", Cell.str "100000"]]

/-- The records the reference investment sheet parses to. -/
def exParsedBonds : List BondData :=
  match cleanAndParseData exNow exInvRows with
  | .ok l => l
  | .error _ => []

/-- A sheet with no recognisable header row of either kind. -/
def exNoHeaderRows : List Row := [[Cell.str "hello world", Cell.num 3], []]

/-- A repayment row whose header tokens sit in two DIFFERENT cells of the
same row. -/
def exRepHeaderSplitRow : Row := [Cell.str "Date", Cell.str "Name of Bond"]

/-- A repayment row with both header tokens in the SAME cell. -/
def exRepHeaderJointRow : Row := [Cell.str "Repayment Date and Name of Bond"]

/-- Column map for the concrete repayment rows: date, bond name, ISIN. -/
def exRepCM : RepColumnMap := { date := some 0, bondName := some 1, isin := some 2 }

/-- A well-formed repayment data row with an accepted `D/M/YYYY` date. -/
def exGoodRepRow : Row := [Cell.str "5/1/2024", Cell.str "ABC Bond", Cell.str "INE1"]

/-- The same repayment row with an ISO-separator date. -/
def exBadRepRow : Row := [Cell.str "2024-01-05", Cell.str "ABC Bond", Cell.str "INE1"]

/-- Column map for the concrete investment rows: bond name, invested
amount. -/
def exInvCM : InvColumnMap := { bondName := some 1, investedAmount := some 2 }

/-- Investment data row whose bond-name cell is empty. -/
def exBlankNameRow : Row := [Cell.str "data", Cell.str "", Cell.str "500"]

/-- Investment data row with a negative invested amount. -/
def exNegAmountRow : Row := [Cell.str "data", Cell.str "Some Bond", Cell.str "-5"]

/-- Well-formed investment data row. -/
def exGoodInvRow : Row := [Cell.str "data", Cell.str "Some Bond", Cell.str "500"]

/-! Helper lemmas. -/

/-- Denominators produced by `parseFloat` are positive powers of ten. -/
theorem parseFloatMag_dpos {l : List Char} {q : JQ} (h : parseFloatMag l = some q) :
    0 < q.d := by
  simp only [parseFloatMag] at h
  split at h
  · split at h
    · exact absurd h (by simp)
    · cases h
      exact pow_pos (by norm_num) _
  · split at h
    · exact absurd h (by simp)
    · cases h
      exact one_pos

/-- Denominators of `parseFloat` results are positive. -/
theorem jsParseFloatOpt_dpos {s : String} {q : JQ} (h : jsParseFloatOpt s = some q) :
    0 < q.d := by
  unfold jsParseFloatOpt at h
  split at h
  · rcases Option.map_eq_some'.mp h with ⟨w, hw, rfl⟩
    simpa using parseFloatMag_dpos hw
  · exact parseFloatMag_dpos h
  · exact parseFloatMag_dpos h

/-- Denominators of coerced amounts are positive. -/
theorem coerceAmount_dpos {c : Cell} {q : JQ} (h : coerceAmount c = some q) : 0 < q.d := by
  unfold coerceAmount at h
  split at h
  · exact jsParseFloatOpt_dpos h
  · exact jsParseFloatOpt_dpos h

/-- When no row satisfies the header predicate the search fails. -/
theorem findHeaderIdx_eq_none {p : Row → Bool} :
    ∀ {rows : List Row}, (∀ r ∈ rows, p r = false) → findHeaderIdx p rows = none := by
  intro rows
  induction rows with
  | nil => intro _; rfl
  | cons r rs ih =>
    intro h
    unfold findHeaderIdx
    rw [h r (List.mem_cons_self _ _)]
    simp only [Bool.false_eq_true, if_false]
    rw [ih fun r' hr' => h r' (List.mem_cons_of_mem _ hr')]
    rfl

/-- The header search returns the FIRST row satisfying the predicate. -/
theorem findHeaderIdx_first {p : Row → Bool} :
    ∀ {rows : List Row} {i : ℕ}, findHeaderIdx p rows = some i →
      ∃ r, rows.get? i = some r ∧ p r = true ∧
        ∀ j, j < i → ∀ r', rows.get? j = some r' → p r' = false := by
  intro rows
  induction rows with
  | nil => intro i h; cases h
  | cons r rs ih =>
    intro i h
    unfold findHeaderIdx at h
    by_cases hp : p r
    · rw [hp] at h
      simp only [if_true] at h
      cases h
      exact ⟨r, rfl, hp, fun j hj => absurd hj (Nat.not_lt_zero j)⟩
    · rw [Bool.eq_false_iff.mpr hp] at h
      simp only [Bool.false_eq_true, if_false, Option.map_eq_some'] at h
      rcases h with ⟨i', hi', rfl⟩
      rcases ih hi' with ⟨r', hr', hpr', hfirst⟩
      refine ⟨r', hr', hpr', ?_⟩
      intro j hj r'' hj''
      cases j with
      | zero =>
        cases hj''
        exact Bool.eq_false_iff.mpr hp
      | succ j' => exact hfirst j' (Nat.lt_of_succ_lt_succ hj) r'' hj''

/-! Claim theorems. -/

/-- Claim C4: the issuer-extraction function satisfies the three reference
equations — `ABC Finance-2 Jul'23` loses its tranche-and-month suffix,
`XYZ Corp 07` loses its trailing bare integer, and a plain name is returned
unchanged. -/
theorem c4_extract_issuer_reference_equations :
    extractBondIssuer "ABC Finance-2 Jul'23" = "ABC Finance" ∧
    extractBondIssuer "XYZ Corp 07" = "XYZ Corp" ∧
    extractBondIssuer "Plain Bond" = "Plain Bond" := by
  decide

/-- Claim C8, counterexample: not every division of the aggregation layer
guards the zero-denominator case.  The `Avg XIRR` cell of `BondTable`
divides by `bondData.length` with no emptiness guard and on an empty bond
list computes `0 / 0`, a non-number; the average-investment-per-period memo
likewise divides by the period count unguarded. -/
theorem c8_counterexample :
    bondTableAvgXirr [] = none ∧ avgInvestment [] 0 = none := by
  decide

/-- Claim C8, amended: the `avgXirr` memo of `BondAnalysisView` explicitly
guards the empty case and returns `0` without dividing; but the `BondTable`
average-XIRR computation and the average-investment-per-period computation
are unguarded and produce a non-number on empty input. -/
theorem c8_average_xirr_guard_policy :
    avgXirr [] = some 0 ∧ bondTableAvgXirr [] = none ∧ avgInvestment [] 0 = none := by
  decide

/-- Claim C1, counterexample: the `principalRemaining` of `BondDetailsModal`
is the UNCLAMPED difference `totalInvestment - actualPrincipalRepaid`; on a
bond with 100000 invested and 150000 of principal repaid it is the negative
number −50000. -/
theorem c1_counterexample :
    modalPrincipalRemaining [exBond] [exOverRep] "ABC Bond" "INE1" = some (-50000) ∧
    (-50000 : JQ).toRat < 0 := by
  constructor
  · decide
  · rw [JQ.toRat, show (-50000 : JQ).n = (-50000 : ℤ) from rfl,
      show (-50000 : JQ).d = 1 from rfl]
    norm_num

/-- Claim C1, amended: the per-series `Principal Remaining` cell of
`BondAnalysisView` clamps with `Math.max(0, ...)` and therefore never shows
a negative number; the modal's `principalRemaining` (the counterexample) is
unclamped and can go negative under over-repayment. -/
theorem c1_view_remaining_never_negative (filteredData : List BondData)
    (repaymentData : List RepaymentData) (bondName isin issuer : String) (v : JSNum) (q : JQ)
    (hv : seriesPrincipalRemaining filteredData repaymentData bondName isin issuer = some v)
    (hq : v = some q) : 0 ≤ q.toRat := by
  subst hq
  simp only [seriesPrincipalRemaining] at hv
  split at hv
  · cases hv
  · rcases Option.some.inj hv with h
    revert h
    cases nsub (sumBy (fun b => b.investedAmount)
        (filteredData.filter fun b =>
          b.bondName == bondName && b.isin == isin && b.bondIssuer == issuer))
        (sumRepBy (fun r => r.principalRepaid)
          (repaymentData.filter fun r => r.bondName == bondName && r.isin == isin)) with
    | none => intro h; cases h
    | some w =>
      intro h
      rcases Option.some.inj (show some (if w.n < 0 then (0 : JQ) else w) = some q from h) with h'
      rw [← h']
      by_cases hw : w.n < 0
      · rw [if_pos hw]
        rw [JQ.toRat, show (0 : JQ).n = (0 : ℤ) from rfl, show (0 : JQ).d = 1 from rfl]
        norm_num
      · rw [if_neg hw]
        unfold JQ.toRat
        apply div_nonneg
        · exact_mod_cast Int.not_lt.mp hw
        · positivity

/-- Claim C1, witness: a concrete series with 100000 invested and no
principal repaid shows a remaining principal of 100000, a nonnegative
value. -/
theorem c1_witness :
    seriesPrincipalRemaining [exBond] exReps "ABC Bond" "INE1" "ABC" = some (some 100000) ∧
    0 ≤ (100000 : JQ).toRat :=
  ⟨by decide,
   c1_view_remaining_never_negative [exBond] exReps "ABC Bond" "INE1" "ABC"
     (some 100000) 100000 (by decide) rfl⟩

/-- Claim C2, counterexample: on the reference scenario (Monthly bond
invested 01/01/2024, evaluated 15/06/2024, interest repayments for Feb, Mar,
Apr 2024 and none for May) NEITHER implementation returns exactly
`["May 2024"]`.  The modal variant produces `Month YYYY` labels but has no
current-month exclusion, so it also flags the still-accruing June (the first
of June is before June 15); the analysis-view variant excludes the current
month but emits the raw first-of-month `DD/MM/YYYY` strings it iterated
over, not `Mon YYYY` labels. -/
theorem c2_counterexample :
    missedInterestMonthsModal "ABC Bond" (some exBond) exReps exNow = ["May 2024", "June 2024"] ∧
    missedInterestMonthsModal "ABC Bond" (some exBond) exReps exNow ≠ ["May 2024"] ∧
    missedInterestMonthsView exBond exReps exNow = ["01/05/2024"] ∧
    missedInterestMonthsView exBond exReps exNow ≠ ["May 2024"] := by
  refine ⟨by decide, by decide, by decide, by decide⟩

/-- Claim C2, amended: in the `BondAnalysisView` variant the expected months
run from the month after investment through `min(now, maturity)` and a month
is reported missed only if it is strictly before the current month (the
current month is never flagged) and has no matching repayment with positive
pre-TDS interest; on the reference scenario the result is exactly the May
label — but rendered as the first-of-month string `01/05/2024`, and the
modal variant, which renders `Month YYYY` labels, additionally flags the
current month once past its first day. -/
theorem c2_missed_months_semantics :
    missedInterestMonthsView exBond exReps exNow = ["01/05/2024"] ∧
    ∀ (bond : BondData) (reps : List RepaymentData) (now : JDate) (s : String),
      s ∈ missedInterestMonthsView bond reps now →
      ∃ k : ℕ, s = fmtFirstOfMonth k ∧ k < now.mi ∧ k ≠ now.mi ∧
        k ∉ interestPaymentIdxs bond reps := by
  constructor
  · decide
  · intro bond reps now s hs
    unfold missedInterestMonthsView at hs
    split at hs
    · simp at hs
    · split at hs
      · rcases List.mem_map.mp hs with ⟨k, hk, rfl⟩
        have hcond := (List.mem_filter.mp hk).2
        simp only [Bool.and_eq_true, Bool.or_eq_true, Bool.not_eq_true',
          decide_eq_true_eq, beq_iff_eq, beq_eq_false_iff_ne, ne_eq] at hcond
        obtain ⟨⟨hbefore, hnotcur⟩, hnopay⟩ := hcond
        have hlt : k < now.mi := by
          rcases hbefore with h | ⟨h, _⟩
          · exact h
          · exact absurd h (by simpa using hnotcur)
        refine ⟨k, rfl, hlt, hnotcur, fun hmem => ?_⟩
        unfold List.contains at hnopay
        rw [List.elem_eq_true_of_mem hmem] at hnopay
        cases hnopay
      · simp at hs

/-- Claim C2, witness: the amended theorem applied to the reference
scenario's single output label. -/
theorem c2_witness :
    ∃ k : ℕ, "01/05/2024" = fmtFirstOfMonth k ∧ k < exNow.mi ∧ k ≠ exNow.mi ∧
      k ∉ interestPaymentIdxs exBond exReps :=
  c2_missed_months_semantics.2 exBond exReps exNow "01/05/2024" (by decide)

/-- Claim C3, counterexample: a repayment sheet whose first row has `Date`
in one cell and `Name of Bond` in a DIFFERENT cell of the same row is NOT
recognised as a header — the source requires one single cell to contain both
tokens — so the whole repayment parse degrades to the empty list even though
a well-formed data row follows. -/
theorem c3_counterexample :
    repHeaderRow exRepHeaderSplitRow = false ∧
    findHeaderIdx repHeaderRow [exRepHeaderSplitRow, exGoodRepRow] = none ∧
    cleanAndParseRepaymentData [exRepHeaderSplitRow, exGoodRepRow] = [] := by
  refine ⟨by decide, by decide, by decide⟩

/-- Claim C3, amended: the repayment header locator selects the first row in
which both tokens `date` and `name of bond` are present, case-insensitively,
in the SAME CELL of that row; tokens split across two cells of one row do
not qualify. -/
theorem c3_header_requires_same_cell :
    (∀ (rows : List Row) (i : ℕ), findHeaderIdx repHeaderRow rows = some i →
      ∃ r, rows.get? i = some r ∧ repHeaderRow r = true ∧
        ∀ j, j < i → ∀ r', rows.get? j = some r' → repHeaderRow r' = false) ∧
    (∀ row : Row, repHeaderRow row = true ↔
      ∃ s : String, Cell.str s ∈ row ∧ strIsEmpty s = false ∧
        jsIncludes (jsLower s) "date" = true ∧ jsIncludes (jsLower s) "name of bond" = true) ∧
    findHeaderIdx repHeaderRow [exRepHeaderJointRow] = some 0 := by
  refine ⟨fun rows i h => findHeaderIdx_first h, ?_, by decide⟩
  intro row
  unfold repHeaderRow
  rw [List.any_eq_true]
  constructor
  · rintro ⟨c, hc, hmatch⟩
    cases c with
    | str s =>
      simp only [Bool.and_eq_true, Bool.not_eq_true'] at hmatch
      exact ⟨s, hc, hmatch.1, hmatch.2.1, hmatch.2.2⟩
    | num n => cases hmatch
    | mt => cases hmatch
  · rintro ⟨s, hmem, hne, hd, hn⟩
    exact ⟨Cell.str s, hmem, by simp [hne, hd, hn]⟩

/-- Claim C3, witness: the first-match characterisation applied to a
one-row sheet whose single cell carries both tokens. -/
theorem c3_witness :
    ∃ r, ([exRepHeaderJointRow] : List Row).get? 0 = some r ∧ repHeaderRow r = true ∧
      ∀ j, j < 0 → ∀ r', ([exRepHeaderJointRow] : List Row).get? j = some r' →
        repHeaderRow r' = false :=
  c3_header_requires_same_cell.1 [exRepHeaderJointRow] 0 (by decide)

/-- Claim C7: a repayment row is kept only when its date cell matches the
anchored pattern `\d{1,2}/\d{1,2}/\d{4}`; concretely the ISO-separator date
`2024-01-05` makes the row silently dropped while `5/1/2024` is accepted,
stored verbatim, and later interpreted (by the split-reverse date parse) as
day 5, month 1, year 2024. -/
theorem c7_repayment_date_strictness :
    (∀ (cm : RepColumnMap) (row : Row),
      matchesDMY (cellStrOr row cm.date) = false → parseRepRow cm row = none) ∧
    parseRepRow exRepCM exBadRepRow = none ∧
    parseRepRow exRepCM exGoodRepRow = some (mkRepRecord exRepCM exGoodRepRow) ∧
    (mkRepRecord exRepCM exGoodRepRow).date = "5/1/2024" ∧
    parseDateRev "5/1/2024" = some ⟨2024, 1, 5⟩ := by
  refine ⟨?_, by decide, by decide, by decide, by decide⟩
  intro cm row h
  unfold parseRepRow
  split_ifs with h1 h2 h3 h4 h5 h6 h7 <;> try rfl
  simp [h] at h6

/-- Claim C7, witness: the only-if direction applied to the concrete
ISO-date row. -/
theorem c7_witness : parseRepRow exRepCM exBadRepRow = none :=
  c7_repayment_date_strictness.1 exRepCM exBadRepRow (by decide)

/-- Exact addition commutes in its two right operands. -/
theorem JQ.add_rightcomm (z x y : JQ) : z + x + y = z + y + x := by
  show JQ.add (JQ.add z x) y = JQ.add (JQ.add z y) x
  unfold JQ.add
  simp only [JQ.mk.injEq]
  constructor <;> push_cast <;> ring

/-- Looking a coordinate up after one accumulation step. -/
theorem lookupPivot_pivotAdd (m : Pivot) (c : Coord) (amt : JSNum) (c' : Coord) :
    lookupPivot (pivotAdd m c amt) c' =
      if c' = c then some (bumpVal (lookupPivot m c) amt) else lookupPivot m c' := by
  induction m with
  | nil =>
    by_cases h : c' = c
    · simp [pivotAdd, lookupPivot, h]
    · simp [pivotAdd, lookupPivot, h, Ne.symm h]
  | cons e t ih =>
    by_cases he : e.1 = c
    · by_cases h : c' = c
      · simp [pivotAdd, lookupPivot, he, h]
      · simp [pivotAdd, lookupPivot, he, h, Ne.symm h]
    · by_cases h : c' = c
      · subst h
        simp [pivotAdd, lookupPivot, he, ih]
      · by_cases hec : e.1 = c'
        · simp [pivotAdd, lookupPivot, he, hec, h]
        · simp [pivotAdd, lookupPivot, he, hec, h, ih]

/-- Looking up a coordinate of a pivot folded from a bond list: only the
bonds at that coordinate contribute, in list order, through the
accumulation step. -/
theorem lookupPivot_foldl (coord : BondData → Coord) :
    ∀ (l : List BondData) (m : Pivot) (c : Coord),
      lookupPivot (l.foldl (fun m b => pivotAdd m (coord b) b.investedAmount) m) c =
        (l.filter (fun b => coord b = c)).foldl
          (fun v b => some (bumpVal v b.investedAmount)) (lookupPivot m c) := by
  intro l
  induction l with
  | nil => intro m c; rfl
  | cons b t ih =>
    intro m c
    simp only [List.foldl_cons, List.filter_cons]
    by_cases h : coord b = c
    · rw [if_pos (by simpa using h)]
      rw [List.foldl_cons, ih]
      congr 1
      rw [lookupPivot_pivotAdd, if_pos h.symm, h]
    · rw [if_neg (by simpa using h)]
      rw [ih]
      congr 1
      rw [lookupPivot_pivotAdd, if_neg (fun hc : c = coord b => h hc.symm)]

/-- With no bond at a coordinate the pivot has no entry there. -/
theorem lookupPivot_buildPivot_no_match (coord : BondData → Coord) (l : List BondData)
    (c : Coord) (h : l.filter (fun b => coord b = c) = []) :
    lookupPivot (buildPivot coord l) c = none := by
  unfold buildPivot
  rw [lookupPivot_foldl, h]
  rfl

/-- Continuing the accumulation chain from a strictly positive running value:
while every amount is finite and positive the falsy-reset of the source never
fires and the chain is plain exact addition. -/
theorem foldl_bump_from_pos :
    ∀ (ms : List BondData) (p : JQ), 0 < p.n → 0 < p.d →
      (∀ b ∈ ms, posAmt b.investedAmount = true) →
      ms.foldl (fun v b => some (bumpVal v b.investedAmount)) (some (some p)) =
        some (some (ms.foldl (fun q b => q + (b.investedAmount).getD 0) p)) := by
  intro ms
  induction ms with
  | nil => intro p _ _ _; rfl
  | cons b t ih =>
    intro p hn hd hpos
    have hb := hpos b (List.mem_cons_self _ _)
    rcases hamt : b.investedAmount with _ | q
    · rw [hamt] at hb; cases hb
    · rw [hamt] at hb
      have hqn : 0 < q.n := by
        have := (Bool.and_eq_true _ _).mp hb
        exact of_decide_eq_true this.1
      have hqd : 0 < q.d := by
        have := (Bool.and_eq_true _ _).mp hb
        exact of_decide_eq_true this.2
      simp only [List.foldl_cons, hamt, Option.getD_some]
      have hne : p.n ≠ 0 := by omega
      have hstep : bumpVal (some (some p)) (some q) = some (p + q) := by
        simp [bumpVal, nfalsy, nadd, hne]
      rw [hstep]
      have hsumn : 0 < (p + q).n := by
        show 0 < p.n * q.d + q.n * p.d
        positivity
      have hsumd : 0 < (p + q).d := by
        show 0 < p.d * q.d
        positivity
      rw [ih (p + q) hsumn hsumd (fun b' hb' => hpos b' (List.mem_cons_of_mem _ hb'))]

/-- Pivot lookup, characterised for positive finite amounts: the entry at a
coordinate is exactly the exact sum of the matching bonds' invested amounts,
and it is absent exactly when no bond matches. -/
theorem lookupPivot_buildPivot_pos (coord : BondData → Coord) (l : List BondData) (c : Coord)
    (hpos : ∀ b ∈ l, posAmt b.investedAmount = true) :
    lookupPivot (buildPivot coord l) c =
      if (l.filter (fun b => coord b = c)).isEmpty then none
      else
        some (some ((l.filter (fun b => coord b = c)).foldl
          (fun q b => q + (b.investedAmount).getD 0) 0)) := by
  unfold buildPivot
  rw [lookupPivot_foldl]
  rcases hms : l.filter (fun b => coord b = c) with _ | ⟨b, t⟩
  · rfl
  · have hbf : b ∈ l.filter (fun b => coord b = c) := by
      rw [hms]
      exact List.mem_cons_self b t
    have hbl : b ∈ l := (List.mem_filter.mp hbf).1
    have hb := hpos b hbl
    rcases hamt : b.investedAmount with _ | q
    · rw [hamt] at hb; cases hb
    · rw [hamt] at hb
      have hqn : 0 < q.n := of_decide_eq_true ((Bool.and_eq_true _ _).mp hb).1
      have hqd : 0 < q.d := of_decide_eq_true ((Bool.and_eq_true _ _).mp hb).2
      have htpos : ∀ b' ∈ t, posAmt b'.investedAmount = true := by
        intro b' hb'
        have hbf' : b' ∈ l.filter (fun b => coord b = c) := by
          rw [hms]
          exact List.mem_cons_of_mem b hb'
        exact hpos b' (List.mem_filter.mp hbf').1
      simp only [List.foldl_cons, hamt, Option.getD_some, List.isEmpty_cons,
        Bool.false_eq_true, if_false]
      have hfirst : some (bumpVal (lookupPivot ([] : Pivot) c) (some q)) =
          some (some ((0 : JQ) + q)) := rfl
      rw [hfirst]
      have hzq_n : 0 < ((0 : JQ) + q).n := by
        show 0 < (0 : ℤ) * q.d + q.n * 1
        omega
      have hzq_d : 0 < ((0 : JQ) + q).d := by
        show 0 < 1 * q.d
        omega
      rw [foldl_bump_from_pos t ((0 : JQ) + q) hzq_n hzq_d htpos]

/-- Claim C5, counterexample: pivot accumulation is NOT order-independent
for every investment list the code can receive.  The parser lets a `NaN`
invested amount through (`NaN <= 0` is false), and the accumulation step
`if (!p[k]) p[k] = 0; p[k] += amount` resets a falsy (`NaN`) cell: with a
`NaN`-amount row and a 100000 row in one order the bucket holds 100000, in
the swapped order it holds `NaN`. -/
theorem c5_counterexample :
    ([exBondNaN, exBond] : List BondData).Perm [exBond, exBondNaN] ∧
    lookupPivot (filteredPivotData .months [exBondNaN, exBond])
      ("ABC", "ABC Bond|INE1", "Jan 2024") = some (some 100000) ∧
    lookupPivot (filteredPivotData .months [exBond, exBondNaN])
      ("ABC", "ABC Bond|INE1", "Jan 2024") = some none ∧
    lookupPivot (filteredPivotData .months [exBondNaN, exBond])
      ("ABC", "ABC Bond|INE1", "Jan 2024") ≠
      lookupPivot (filteredPivotData .months [exBond, exBondNaN])
        ("ABC", "ABC Bond|INE1", "Jan 2024") := by
  refine ⟨by decide, by decide, by decide, by decide⟩

/-- Claim C5, amended: whenever every filtered investment carries a finite,
strictly positive invested amount — which is what the row guard
`investedAmount <= 0` is meant to ensure, the `NaN` leak being the
counterexample — `filteredPivotData` built from any permutation of the rows
is the identical mapping, and the entry of a coordinate is the SUM of the
invested amounts of all rows sharing that issuer, series key and time
bucket (absent exactly when there are none), never an overwrite. -/
theorem c5_pivot_order_independent :
    (∀ (v : DurationView) (l₁ l₂ : List BondData), l₁.Perm l₂ →
      (∀ b ∈ l₁, posAmt b.investedAmount = true) →
      ∀ c : Coord, lookupPivot (filteredPivotData v l₁) c =
        lookupPivot (filteredPivotData v l₂) c) ∧
    (∀ (v : DurationView) (l : List BondData) (c : Coord),
      (∀ b ∈ l, posAmt b.investedAmount = true) →
      lookupPivot (filteredPivotData v l) c =
        if (l.filter (fun b => viewCoord v b = c)).isEmpty then none
        else
          some (some ((l.filter (fun b => viewCoord v b = c)).foldl
            (fun q b => q + (b.investedAmount).getD 0) 0))) := by
  have key := fun (v : DurationView) => lookupPivot_buildPivot_pos (viewCoord v)
  refine ⟨?_, fun v l c hpos => key v l c hpos⟩
  intro v l₁ l₂ hperm hpos c
  have hpos₂ : ∀ b ∈ l₂, posAmt b.investedAmount = true := fun b hb =>
    hpos b (hperm.mem_iff.mpr hb)
  unfold filteredPivotData
  rw [key v l₁ c hpos, key v l₂ c hpos₂]
  have hf : (l₁.filter (fun b => viewCoord v b = c)).Perm
      (l₂.filter (fun b => viewCoord v b = c)) := hperm.filter _
  have hlen := hf.length_eq
  have hemp : (l₁.filter (fun b => viewCoord v b = c)).isEmpty =
      (l₂.filter (fun b => viewCoord v b = c)).isEmpty := by
    apply Bool.eq_iff_iff.mpr
    simp only [List.isEmpty_iff, ← List.length_eq_zero, hlen]
  rw [hemp]
  have hfold : (l₁.filter (fun b => viewCoord v b = c)).foldl
      (fun q b => q + (b.investedAmount).getD 0) 0 =
      (l₂.filter (fun b => viewCoord v b = c)).foldl
        (fun q b => q + (b.investedAmount).getD 0) 0 :=
    hf.foldl_eq'
      (fun x _ y _ z =>
        JQ.add_rightcomm z ((x.investedAmount).getD 0) ((y.investedAmount).getD 0)) 0
  rw [hfold]

/-- Claim C5, witness: the permutation conjunct applied to the two-tranche
reference series in both orders. -/
theorem c5_witness :
    lookupPivot (filteredPivotData .months [exBond, exBond2])
      ("ABC", "ABC Bond|INE1", "Jun 2023") =
    lookupPivot (filteredPivotData .months [exBond2, exBond])
      ("ABC", "ABC Bond|INE1", "Jun 2023") :=
  c5_pivot_order_independent.1 .months [exBond, exBond2] [exBond2, exBond]
    (by decide) (by decide) ("ABC", "ABC Bond|INE1", "Jun 2023")

/-- The two-stage filtering of `generatePivotData` at a diagonal coordinate
collapses to one pass: active bonds of the issuer in the month. -/
theorem generate_filter_collapse (data : List BondData) (i t : String) :
    (data.filter (fun b => !b.matured)).filter
        (fun b => ((b.bondIssuer, b.bondIssuer, b.monthYear) : Coord) = (i, i, t)) =
      data.filter (fun b => !b.matured && b.bondIssuer == i && b.monthYear == t) := by
  rw [List.filter_filter]
  apply List.filter_congr
  intro b _
  by_cases hm : b.matured <;> by_cases hi : b.bondIssuer = i <;>
    by_cases ht : b.monthYear = t <;>
    simp [hm, hi, ht, Prod.ext_iff]

/-- Claim C10: the upload-time pivot `generatePivotData` excludes matured
investments, keys the second level by the ISSUER name itself (an entry
`(i, k, t)` exists only when `k = i`), and the diagonal entry accumulates —
sums, never overwrites — the invested amounts of ALL the issuer's active
investments of that month, merging distinct bond series. -/
theorem c10_generate_pivot_shape :
    (∀ (data : List BondData) (i k t : String),
      lookupPivot (generatePivotData data) (i, k, t) ≠ none → k = i) ∧
    (∀ (data : List BondData) (i t : String),
      (∀ b ∈ data, posAmt b.investedAmount = true) →
      lookupPivot (generatePivotData data) (i, i, t) =
        if (data.filter (fun b => !b.matured && b.bondIssuer == i && b.monthYear == t)).isEmpty
        then none
        else
          some (some ((data.filter
              (fun b => !b.matured && b.bondIssuer == i && b.monthYear == t)).foldl
            (fun q b => q + (b.investedAmount).getD 0) 0))) := by
  constructor
  · intro data i k t hne
    by_contra hki
    apply hne
    apply lookupPivot_buildPivot_no_match
    rw [List.filter_eq_nil_iff]
    intro b _
    simp only [decide_eq_true_eq, Prod.mk.injEq]
    rintro ⟨hbi, hbk, -⟩
    exact hki (hbk.symm.trans hbi)
  · intro data i t hpos
    unfold generatePivotData
    rw [lookupPivot_buildPivot_pos _ _ _ (fun b hb => hpos b (List.mem_filter.mp hb).1)]
    rw [generate_filter_collapse]

/-- Claim C10, witness: on a three-bond list (two series of issuer `ABC`
plus one matured bond) the diagonal January entry is the active January
amount and the issuer equation holds at an occupied coordinate. -/
theorem c10_witness :
    ("ABC" : String) = "ABC" ∧
    lookupPivot (generatePivotData [exBond, exBond2, exBondMatured]) ("ABC", "ABC", "Jan 2024") =
      some (some 100000) :=
  ⟨c10_generate_pivot_shape.1 [exBond] "ABC" "ABC" "Jan 2024" (by decide),
   (c10_generate_pivot_shape.2 [exBond, exBond2, exBondMatured] "ABC" "Jan 2024"
     (by decide)).trans (by decide)⟩

/-- Claim C6: an investment data row is excluded whenever its coerced bond
name is empty or its parsed invested amount is not positive — even if every
other field is well-formed — and every row passing all the row guards
contributes exactly its record to the parsed result. -/
theorem c6_row_rejection :
    (∀ (now : JDate) (cm : InvColumnMap) (row : Row),
      cellStrOr row cm.bondName = "" → parseInvRow now cm row = none) ∧
    (∀ (now : JDate) (cm : InvColumnMap) (row : Row) (q : JQ),
      coerceAmount (getCell row cm.investedAmount) = some q → q.toRat ≤ 0 →
      parseInvRow now cm row = none) ∧
    (∀ (now : JDate) (cm : InvColumnMap) (row : Row),
      invRowAccepted cm row = true → parseInvRow now cm row = some (mkBondRecord now cm row)) ∧
    (∀ (now : JDate) (cm : InvColumnMap) (rows : List Row) (row : Row),
      row ∈ rows → invRowAccepted cm row = true →
      mkBondRecord now cm row ∈ rows.filterMap (parseInvRow now cm)) := by
  have hname : ∀ (now : JDate) (cm : InvColumnMap) (row : Row),
      cellStrOr row cm.bondName = "" → parseInvRow now cm row = none := by
    intro now cm row h
    unfold parseInvRow
    split_ifs with h1 h2 h3 h4 h5 <;> try rfl
    rw [h] at h4
    exact absurd (by decide) h4
  have hamt : ∀ (now : JDate) (cm : InvColumnMap) (row : Row) (q : JQ),
      coerceAmount (getCell row cm.investedAmount) = some q → q.toRat ≤ 0 →
      parseInvRow now cm row = none := by
    intro now cm row q hq hle
    have hd : 0 < q.d := coerceAmount_dpos hq
    have hn : q.n ≤ 0 := by
      unfold JQ.toRat at hle
      rcases div_nonpos_iff.mp hle with ⟨-, hd'⟩ | ⟨hn', -⟩
      · exfalso
        have : (0 : ℚ) < (q.d : ℚ) := by exact_mod_cast hd
        linarith
      · exact_mod_cast hn'
    unfold parseInvRow
    split_ifs with h1 h2 h3 h4 h5 <;> try rfl
    exfalso
    apply h5
    rw [hq]
    unfold nle0
    exact decide_eq_true hn
  have haccept : ∀ (now : JDate) (cm : InvColumnMap) (row : Row),
      invRowAccepted cm row = true → parseInvRow now cm row = some (mkBondRecord now cm row) := by
    intro now cm row hacc
    unfold invRowAccepted at hacc
    simp only [Bool.and_eq_true, Bool.not_eq_true'] at hacc
    obtain ⟨⟨⟨⟨h1, h2⟩, h3⟩, h4⟩, h5⟩ := hacc
    simp [parseInvRow, h1, h2, h3, h4, h5]
  refine ⟨hname, hamt, haccept, ?_⟩
  intro now cm rows row hmem hacc
  exact List.mem_filterMap.mpr ⟨row, hmem, haccept now cm row hacc⟩

/-- Claim C6, witness: a blank-name row and a negative-amount row are
excluded; the well-formed row of the same shape is kept and its record
appears in the parse of the three-row sheet. -/
theorem c6_witness :
    parseInvRow exNow exInvCM exBlankNameRow = none ∧
    parseInvRow exNow exInvCM exNegAmountRow = none ∧
    parseInvRow exNow exInvCM exGoodInvRow = some (mkBondRecord exNow exInvCM exGoodInvRow) ∧
    mkBondRecord exNow exInvCM exGoodInvRow ∈
      ([exBlankNameRow, exNegAmountRow, exGoodInvRow] : List Row).filterMap
        (parseInvRow exNow exInvCM) :=
  ⟨c6_row_rejection.1 exNow exInvCM exBlankNameRow (by decide),
   c6_row_rejection.2.1 exNow exInvCM exNegAmountRow ⟨-5, 1⟩ (by decide)
     (by rw [JQ.toRat]; norm_num),
   c6_row_rejection.2.2.1 exNow exInvCM exGoodInvRow (by decide),
   c6_row_rejection.2.2.2 exNow exInvCM [exBlankNameRow, exNegAmountRow, exGoodInvRow]
     exGoodInvRow (by decide) (by decide)⟩

/-- Claim C9: a missing investment header is FATAL — `cleanAndParseData`
reports the header error and the upload produces nothing — while a missing
repayment header is non-fatal: `cleanAndParseRepaymentData` degrades to the
empty list and the upload still succeeds with the parsed investments, the
(empty) repayment set and the pivot. -/
theorem c9_header_error_policy :
    (∀ (now : JDate) (rows : List Row), (∀ r ∈ rows, invHeaderRow r = false) →
      cleanAndParseData now rows = .error "Could not find header row in the Excel file") ∧
    (∀ rows : List Row, (∀ r ∈ rows, repHeaderRow r = false) →
      cleanAndParseRepaymentData rows = []) ∧
    (∀ (now : JDate) (invRows repRows : List Row),
      (∀ r ∈ invRows, invHeaderRow r = false) →
      uploadResult now invRows repRows =
        .error "Could not find header row in the Excel file") ∧
    (∀ (now : JDate) (invRows repRows : List Row) (parsed : List BondData),
      cleanAndParseData now invRows = .ok parsed → parsed ≠ [] →
      uploadResult now invRows repRows =
        .ok (parsed, cleanAndParseRepaymentData repRows, generatePivotData parsed)) := by
  have hinv : ∀ (now : JDate) (rows : List Row), (∀ r ∈ rows, invHeaderRow r = false) →
      cleanAndParseData now rows = .error "Could not find header row in the Excel file" := by
    intro now rows h
    unfold cleanAndParseData
    rw [findHeaderIdx_eq_none h]
  refine ⟨hinv, ?_, ?_, ?_⟩
  · intro rows h
    unfold cleanAndParseRepaymentData
    rw [findHeaderIdx_eq_none h]
  · intro now invRows repRows h
    unfold uploadResult
    rw [hinv now invRows h]
  · intro now invRows repRows parsed hok hne
    unfold uploadResult
    rw [hok]
    simp [List.isEmpty_iff, hne]

/-- Claim C9, witness: the reference investment sheet uploads successfully
even when the repayment sheet has no recognisable header, which by itself
parses to the empty set; a headerless investment sheet instead yields the
fatal error. -/
theorem c9_witness :
    cleanAndParseData exNow exNoHeaderRows =
      .error "Could not find header row in the Excel file" ∧
    cleanAndParseRepaymentData exNoHeaderRows = [] ∧
    uploadResult exNow exNoHeaderRows exInvRows =
      .error "Could not find header row in the Excel file" ∧
    uploadResult exNow exInvRows exNoHeaderRows =
      .ok (exParsedBonds, cleanAndParseRepaymentData exNoHeaderRows,
        generatePivotData exParsedBonds) :=
  ⟨c9_header_error_policy.1 exNow exNoHeaderRows (by decide),
   c9_header_error_policy.2.1 exNoHeaderRows (by decide),
   c9_header_error_policy.2.2.1 exNow exNoHeaderRows exInvRows (by decide),
   c9_header_error_policy.2.2.2 exNow exInvRows exNoHeaderRows exParsedBonds rfl (by decide)⟩

end BW
